import Mathlib

/-!
Shallow embedding of the go-rwsheets library (package rwsheets).

The embedding covers the two logic units of the repository — serial-date
conversion (`SerialDate`, src/rwsheets.go) and row removal (`RemoveRow`,
src/rwsheets.go) — together with the cell/border builders of src/doc.go
(`CellBorders`, `Styler.TextCell`, `Styler.DateCell`).

Conventions of the embedding:
* Go slices of rows become `List α`; Go `int` indices become `Int`.  The
  one int64 operation that can overflow on a machine-representable input
  (`rmvIdx+1` in `RemoveRow`, at `rmvIdx = maxInt64`) is embedded with
  explicit two's-complement wrapping (`int64Succ`).
* A Go slice expression `xs[:i]` / `xs[i:]` panics when the bound is
  negative or exceeds the length; panicking computations are embedded as
  `Option`, with `none` for a panic.
* Go `float64` values are embedded as `ℚ`.  Every float computed by the
  embedded code paths is either an integer of magnitude well below 2^53 or
  a quotient whose double rounding does not affect any (in)equality proved
  here, so exact rational arithmetic agrees with the Go values on
  everything stated below.
* `time.Parse` is embedded for the layout fragment the library exercises:
  literal characters and the reference chunks "1" (numeric month),
  "2" (numeric day) and "2006" (four-digit year).  A layout using any
  other reference chunk of Go's time package is rejected by `scanLayout`
  (it yields `none`); all theorems below evaluate or hypothesise layouts
  inside the supported fragment, where the embedding is faithful to Go.
-/

namespace RWSheets

/-- Embedding of the Go slice expression `xs[:i]` (`i` an `int`): panics —
here `none` — unless `0 ≤ i ≤ len xs`. -/
def goSliceTo {α : Type} (xs : List α) (i : Int) : Option (List α) :=
  if 0 ≤ i ∧ i ≤ (xs.length : Int) then some (xs.take i.toNat) else none

/-- Embedding of the Go slice expression `xs[i:]`: panics — here `none` —
unless `0 ≤ i ≤ len xs`. -/
def goSliceFrom {α : Type} (xs : List α) (i : Int) : Option (List α) :=
  if 0 ≤ i ∧ i ≤ (xs.length : Int) then some (xs.drop i.toNat) else none

/-- Embedding of the Go int64 increment `x + 1` with two's-complement
wrapping: on every int64-representable input the only overflow is at
maxInt64 = 2^63 − 1, where the result wraps to minInt64 = −2^63; this
agrees with `(x + 1 + 2^63) % 2^64 − 2^63` on the whole representable
range.  On inputs outside the int64 range — which no Go execution can
produce — the function extends as the plain successor, so theorems
quantifying past the machine range do not silently change meaning. -/
def int64Succ (x : Int) : Int :=
  if x = 9223372036854775807 then -9223372036854775808 else x + 1

/-- Embedding of `RemoveRow` (src/rwsheets.go lines 76–87).  The Go source:

    if len(rows) == rmvIdx {
        // Let's assume we wanted to remove the last row ..
        return rows[:rmvIdx-2]
    }
    if rmvIdx+1 > len(rows) {
        return rows
    }
    return append(rows[:rmvIdx], rows[rmvIdx+1:]...)

`none` models a Go panic from an out-of-range slice bound.  `rmvIdx+1` is
computed with int64 wrapping (`int64Succ`): it is the one machine-integer
operation in the function that can overflow on a representable input
(`rmvIdx = maxInt64`).  The `rmvIdx-2` in the first branch is guarded by
`rmvIdx == len(rows)`, and a Go slice length lies in `[0, 2^63)`, so that
subtraction cannot overflow and is embedded exactly. -/
def RemoveRow {α : Type} (rows : List α) (rmvIdx : Int) : Option (List α) :=
  if (rows.length : Int) = rmvIdx then
    goSliceTo rows (rmvIdx - 2)
  else if int64Succ rmvIdx > (rows.length : Int) then
    some rows
  else do
    let front ← goSliceTo rows rmvIdx
    let back ← goSliceFrom rows (int64Succ rmvIdx)
    some (front ++ back)

/-- Calendar date produced by the embedded `time.Parse`: the time-of-day
components are always zero for the layouts the library uses, so only the
date triple is carried. -/
structure Date where
  year : Int
  month : Nat
  day : Nat
deriving DecidableEq, Repr

/-- Reference chunks of Go's `time` package supported by the embedding:
"1" (numeric month), "2" (numeric day), "2006" (four-digit year). -/
inductive Std where
  | numMonth
  | day
  | longYear
deriving DecidableEq, Repr

/-- One element of a scanned layout: a literal character or a reference
chunk. -/
inductive Chunk where
  | lit (c : Char)
  | std (s : Std)
deriving DecidableEq, Repr

/-- Embedding of Go `nextStdChunk` (time/format.go) iterated over the whole
layout.  Characters that begin a reference chunk outside the supported
fragment — "15", "3", "4", "5", zero-padded numbers "01".."06" and "002",
"Jan", "Mon", "MST", "pm", "PM", "_2", numeric/named zones ("-07"…, "Z07"…)
and fractional seconds — make the scan fail with `none` (layout outside the
modelled fragment).  All other characters are literals, exactly as in Go. -/
def scanLayout : List Char → Option (List Chunk)
  | [] => some []
  | '1' :: '5' :: _ => none
  | '1' :: rest => (Chunk.std .numMonth :: ·) <$> scanLayout rest
  | '2' :: '0' :: '0' :: '6' :: rest => (Chunk.std .longYear :: ·) <$> scanLayout rest
  | '2' :: rest => (Chunk.std .day :: ·) <$> scanLayout rest
  | '3' :: _ => none
  | '4' :: _ => none
  | '5' :: _ => none
  | '0' :: '0' :: '2' :: _ => none
  | '0' :: c :: rest =>
    if '1' ≤ c ∧ c ≤ '6' then none
    else (Chunk.lit '0' :: ·) <$> scanLayout (c :: rest)
  | 'J' :: 'a' :: 'n' :: _ => none
  | 'M' :: 'o' :: 'n' :: _ => none
  | 'M' :: 'S' :: 'T' :: _ => none
  | 'p' :: 'm' :: _ => none
  | 'P' :: 'M' :: _ => none
  | '-' :: '0' :: '7' :: _ => none
  | 'Z' :: '0' :: '7' :: _ => none
  | '_' :: '2' :: '0' :: '0' :: '6' :: rest =>
    (fun cs => Chunk.lit '_' :: Chunk.std .longYear :: cs) <$> scanLayout rest
  | '_' :: '2' :: _ => none
  | '.' :: '0' :: _ => none
  | '.' :: '9' :: _ => none
  | ',' :: '0' :: _ => none
  | ',' :: '9' :: _ => none
  | c :: rest => (Chunk.lit c :: ·) <$> scanLayout rest

/-- Embedding of Go `getnum` with `fixed = false` (time/format.go): one
digit, then an optional second digit. -/
def getnum2 : List Char → Option (Nat × List Char)
  | [] => none
  | c1 :: rest =>
    if c1.isDigit then
      match rest with
      | c2 :: rest2 =>
        if c2.isDigit then
          some ((c1.toNat - '0'.toNat) * 10 + (c2.toNat - '0'.toNat), rest2)
        else some (c1.toNat - '0'.toNat, rest)
      | [] => some (c1.toNat - '0'.toNat, [])
    else none

/-- Embedding of the `stdLongYear` case of Go `Parse`: exactly four leading
digits. -/
def getnum4 : List Char → Option (Nat × List Char)
  | c1 :: c2 :: c3 :: c4 :: rest =>
    if c1.isDigit ∧ c2.isDigit ∧ c3.isDigit ∧ c4.isDigit then
      some ((((c1.toNat - '0'.toNat) * 10 + (c2.toNat - '0'.toNat)) * 10
        + (c3.toNat - '0'.toNat)) * 10 + (c4.toNat - '0'.toNat), rest)
    else none
  | _ => none

/-- Parse state of Go `Parse`: the defaults are year 0, January, day 1,
exactly as in time/format.go. -/
structure PState where
  year : Int := 0
  month : Nat := 1
  day : Nat := 1
deriving DecidableEq, Repr

/-- Whether `y` is a leap year in the proleptic Gregorian calendar
(time/time.go `isLeap`; every year reachable from `getnum4` is
non-negative, where `%` agrees with Go's remainder). -/
def isLeap (y : Int) : Bool := y % 4 == 0 && (y % 100 != 0 || y % 400 == 0)

/-- Cumulative day counts before each month in a non-leap year
(time/time.go `daysBefore`). -/
def daysBefore : Nat → Nat
  | 1 => 0
  | 2 => 31
  | 3 => 59
  | 4 => 90
  | 5 => 120
  | 6 => 151
  | 7 => 181
  | 8 => 212
  | 9 => 243
  | 10 => 273
  | 11 => 304
  | 12 => 334
  | _ => 365

/-- Number of days in month `m` of year `y` (time/time.go `daysIn`). -/
def daysIn (m : Nat) (y : Int) : Nat :=
  if m = 2 ∧ isLeap y then 29 else daysBefore (m + 1) - daysBefore m

/-- Main loop of Go `Parse` over the scanned layout chunks: literals must
match exactly, the month is range-checked on the spot, leftover input is an
error ("extra text"), exhausted input under a pending chunk is an error. -/
def runChunks : List Chunk → List Char → PState → Option PState
  | [], v, st => if v = [] then some st else none
  | Chunk.lit c :: cs, v, st =>
    match v with
    | [] => none
    | c' :: v' => if c' = c then runChunks cs v' st else none
  | Chunk.std .numMonth :: cs, v, st => do
    let (m, v') ← getnum2 v
    if 1 ≤ m ∧ m ≤ 12 then runChunks cs v' { st with month := m } else none
  | Chunk.std .day :: cs, v, st => do
    let (d, v') ← getnum2 v
    runChunks cs v' { st with day := d }
  | Chunk.std .longYear :: cs, v, st => do
    let (y, v') ← getnum4 v
    runChunks cs v' { st with year := (y : Int) }

/-- Embedding of `time.Parse layout value` restricted to the supported
layout fragment.  After the chunk loop, the day of month is validated
against `daysIn`, as in time/format.go ("day out of range").  Layouts
outside the fragment yield `none`; no theorem below relies on the value at
such a layout. -/
def timeParse (layout value : String) : Option Date :=
  match scanLayout layout.toList with
  | none => none
  | some cs =>
    match runChunks cs value.toList {} with
    | none => none
    | some st =>
      if 1 ≤ st.day ∧ st.day ≤ daysIn st.month st.year then
        some ⟨st.year, st.month, st.day⟩
      else none

/-- Days from January 1 of year 1 to the given date, in the proleptic
Gregorian calendar — the date part of Go's absolute time
(time/time.go `daysSinceEpoch` + `Date`), shifted to the year-1 origin.
Go's unsigned-offset arithmetic is floor division on the original year. -/
def absDays (d : Date) : Int :=
  let y := d.year - 1
  365 * y + Int.fdiv y 4 - Int.fdiv y 100 + Int.fdiv y 400
    + (daysBefore d.month : Int)
    + (if 2 < d.month ∧ isLeap d.year then 1 else 0)
    + ((d.day : Int) - 1)

/-- Nanoseconds in one day. -/
def nsPerDay : Int := 86400000000000

/-- Largest / smallest value of Go's int64 `Duration`. -/
def maxDuration : Int := 9223372036854775807

/-- Smallest value of Go's int64 `Duration`. -/
def minDuration : Int := -9223372036854775808

/-- Embedding of `t.Sub(u)` for two midnight dates given as absolute day
counts: the difference in nanoseconds, saturated to the int64 `Duration`
range exactly as documented for time.Time.Sub. -/
def subDur (t u : Int) : Int :=
  if (t - u) * nsPerDay > maxDuration then maxDuration
  else if (t - u) * nsPerDay < minDuration then minDuration
  else (t - u) * nsPerDay

/-- Embedding of `Duration.Hours` (time/time.go): split into whole hours
and a nanosecond remainder with Go's truncated division, then combine;
`ℚ` stands in for the float64 result (exact whenever the remainder is 0,
which holds on every value this development equates). -/
def durHours (d : Int) : ℚ :=
  ((Int.tdiv d 3600000000000 : Int) : ℚ)
    + ((Int.tmod d 3600000000000 : Int) : ℚ) / 3600000000000

/-- Embedding of `SerialDate` (src/rwsheets.go lines 119–132):

    newDate, err := time.Parse(format, value)
    if err != nil { return 0.0, err }
    startDate, err := time.Parse("1/2/2006", "12/30/1899")
    if err != nil { return 0.0, err }
    days := newDate.Sub(startDate).Hours() / 24
    return float64(days), nil

`none` models a returned error. -/
def SerialDate (value format : String) : Option ℚ :=
  match timeParse format value with
  | none => none
  | some newDate =>
    match timeParse "1/2/2006" "12/30/1899" with
    | none => none
    | some startDate =>
      some (durHours (subDur (absDays newDate) (absDays startDate)) / 24)

/-- Epoch of the Google Sheets serial-date convention, 1899-12-30 (the
spec's fixed Epoch; the value `SerialDate` obtains by parsing
"12/30/1899"). -/
def serialEpoch : Date := ⟨1899, 12, 30⟩

/-- Embedding of `sheets.Color` (ARGB, float64 components as `ℚ`). -/
structure GColor where
  alpha : ℚ
  blue : ℚ
  green : ℚ
  red : ℚ
deriving DecidableEq, Repr

/-- Embedding of `sheets.ColorStyle`: only the `RgbColor` variant is ever
built by this library. -/
structure ColorStyle where
  rgbColor : GColor
deriving DecidableEq, Repr

/-- Embedding of `Color` (src/doc.go): builds a `ColorStyle` from ARGB
components. -/
def Color (a b g r : ℚ) : ColorStyle := ⟨⟨a, b, g, r⟩⟩

/-- Embedding of the package-level `BLACK_COLOR = Color(1, 0, 0, 0)`. -/
def BLACK_COLOR : ColorStyle := Color 1 0 0 0

/-- Embedding of `sheets.Border` (the two fields the library sets). -/
structure Border where
  colorStyle : ColorStyle
  style : String
deriving DecidableEq, Repr

/-- Embedding of `sheets.Borders`: each side is a nilable pointer in Go,
hence an `Option` here, `none` by default (`var borders sheets.Borders`). -/
structure Borders where
  bottom : Option Border := none
  left : Option Border := none
  right : Option Border := none
  top : Option Border := none
deriving DecidableEq, Repr

/-- Embedding of `BorderConf` (src/doc.go): `Color` is a nilable pointer,
hence `Option`. -/
structure BorderConf where
  bottom : Bool := false
  left : Bool := false
  right : Bool := false
  style : String := ""
  top : Bool := false
  color : Option ColorStyle := none
deriving DecidableEq, Repr

/-- Embedding of `CellBorders` (src/doc.go lines 350–386): empty style
defaults to "SOLID", nil color defaults to `BLACK_COLOR`, and each side is
set exactly when its flag is set. -/
def CellBorders (conf : BorderConf) : Borders :=
  let style := if conf.style = "" then "SOLID" else conf.style
  let color := match conf.color with
    | none => BLACK_COLOR
    | some c => c
  let borders : Borders := {}
  let borders := if conf.bottom then
    { borders with bottom := some ⟨color, style⟩ } else borders
  let borders := if conf.left then
    { borders with left := some ⟨color, style⟩ } else borders
  let borders := if conf.right then
    { borders with right := some ⟨color, style⟩ } else borders
  let borders := if conf.top then
    { borders with top := some ⟨color, style⟩ } else borders
  borders

/-- Embedding of `sheets.TextFormat` (the fields the library sets). -/
structure GTextFormat where
  bold : Bool := false
  fontFamily : String := ""
  fontSize : Int := 0
deriving DecidableEq, Repr

/-- Embedding of `sheets.NumberFormat`. -/
structure GNumberFormat where
  pattern : String := ""
  type : String := ""
deriving DecidableEq, Repr

/-- Embedding of `sheets.CellFormat` (nilable pointer fields as
`Option`). -/
structure CellFormat where
  horizontalAlignment : String := ""
  numberFormat : Option GNumberFormat := none
  textFormat : Option GTextFormat := none
  verticalAlignment : String := ""
  borders : Option Borders := none
deriving DecidableEq, Repr

/-- Embedding of `sheets.ExtendedValue`: a struct of four nilable fields,
of which the library's constructors set exactly one. -/
structure ExtendedValue where
  boolValue : Option Bool := none
  formulaValue : Option String := none
  numberValue : Option ℚ := none
  stringValue : Option String := none
deriving DecidableEq, Repr

/-- Embedding of `TextValue` (src/rwsheets.go). -/
def TextValue (value : String) : ExtendedValue := { stringValue := some value }

/-- Embedding of `NumberValue` (src/rwsheets.go). -/
def NumberValue (value : ℚ) : ExtendedValue := { numberValue := some value }

/-- Embedding of `sheets.DataValidationRule` as far as the library builds
it (`CheckBoxCell`); carried only so `CellData` has the Go shape. -/
structure DataValidationRule where
  conditionType : String
  strict : Bool
deriving DecidableEq, Repr

/-- Embedding of `sheets.CellData` (the fields the library sets). -/
structure CellData where
  dataValidation : Option DataValidationRule := none
  userEnteredFormat : Option CellFormat := none
  userEnteredValue : Option ExtendedValue := none
deriving DecidableEq, Repr

/-- Embedding of the `Styler` struct (src/doc.go). -/
structure Styler where
  fontBold : Bool
  fontFamily : String
  fontSize : Int
  datePattern : String
  numberPattern : String
  horizontalAlignment : String
  verticalAlignment : String
deriving DecidableEq, Repr

/-- Embedding of `NewStyler` (src/doc.go): the developer-preferred default
settings. -/
def NewStyler : Styler :=
  { fontBold := false
    fontFamily := "Verdana"
    fontSize := 10
    datePattern := "M/d/yyyy"
    numberPattern := "#,##0.00_);-#,##0.00"
    horizontalAlignment := "LEFT"
    verticalAlignment := "MIDDLE" }

/-- Embedding of the method `Styler.TextFormat` (src/doc.go). -/
def Styler.TextFormat (s : Styler) : GTextFormat :=
  { bold := s.fontBold
    fontFamily := s.fontFamily
    fontSize := s.fontSize }

/-- Embedding of the method `Styler.DateFormat` (src/doc.go). -/
def Styler.DateFormat (s : Styler) : GNumberFormat :=
  { pattern := s.datePattern
    type := "DATE" }

/-- Embedding of the method `Styler.TextCell` (src/doc.go): borders are set
on the format only when the `BorderConf` pointer is non-nil. -/
def Styler.TextCell (s : Styler) (value : String) (borders : Option BorderConf) :
    CellData :=
  let format : CellFormat :=
    { horizontalAlignment := s.horizontalAlignment
      textFormat := some s.TextFormat
      verticalAlignment := s.verticalAlignment
      borders := borders.map CellBorders }
  { userEnteredFormat := some format
    userEnteredValue := some (TextValue value) }

/-- Embedding of the method `Styler.DateCell` (src/doc.go lines 600–621):
falls back to `TextCell` when `SerialDate` errors, otherwise builds a
number cell with the styler's date format. -/
def Styler.DateCell (s : Styler) (date layout : String)
    (borders : Option BorderConf) : CellData :=
  match SerialDate date layout with
  | none => s.TextCell date borders
  | some serialDate =>
    let format : CellFormat :=
      { horizontalAlignment := s.horizontalAlignment
        numberFormat := some s.DateFormat
        textFormat := some s.TextFormat
        verticalAlignment := s.verticalAlignment
        borders := borders.map CellBorders }
    { userEnteredFormat := some format
      userEnteredValue := some (NumberValue serialDate) }

/-! Helper lemmas shared by the claim theorems below. -/

theorem take_length_sub_two {α : Type} (l : List α) :
    l.take (l.length - 2) = l.dropLast.dropLast := by
  simp only [List.dropLast_eq_take, List.length_take, List.take_take]
  congr 1
  omega

theorem epoch_parses : timeParse "1/2/2006" "12/30/1899" = some serialEpoch := by
  decide

theorem durHours_subDur (a b : Int) (hlb : -106751 ≤ a - b)
    (hub : a - b ≤ 106751) :
    durHours (subDur a b) / 24 = ((a - b : Int) : ℚ) := by
  have h1 : (a - b) * nsPerDay ≤ maxDuration := by
    unfold nsPerDay maxDuration
    nlinarith
  have h2 : minDuration ≤ (a - b) * nsPerDay := by
    unfold nsPerDay minDuration
    nlinarith
  unfold subDur
  rw [if_neg (by omega), if_neg (by omega)]
  have hd : (a - b) * nsPerDay = ((a - b) * 24) * 3600000000000 := by
    unfold nsPerDay
    ring
  rw [hd]
  unfold durHours
  rw [Int.mul_tdiv_cancel _ (by norm_num), Int.mul_tmod_left]
  push_cast
  ring

/-- C1: the spec says `remove_row([], 0)` returns `[]` unchanged without
crashing; the code instead takes the `len(rows) == rmvIdx` branch and
evaluates `rows[:-2]`, which panics — `none` in the embedding. -/
theorem removeRow_empty_zero : RemoveRow ([] : List Unit) 0 = none := by
  decide

/-- C2: for a row sequence with at least two elements, `RemoveRow` at
index `len(rows)` removes exactly the last two elements, keeping the
remaining elements in order (`dropLast` applied twice). -/
theorem removeRow_at_length {α : Type} (rows : List α) (h : 2 ≤ rows.length) :
    RemoveRow rows (rows.length : Int) = some rows.dropLast.dropLast := by
  unfold RemoveRow
  rw [if_pos rfl]
  unfold goSliceTo
  rw [if_pos (by omega)]
  have ht : ((rows.length : Int) - 2).toNat = rows.length - 2 := by omega
  rw [ht, take_length_sub_two]

theorem removeRow_at_length_witness :
    RemoveRow [(1 : Nat), 2, 3] 3 = some [1] := by
  have h := removeRow_at_length [(1 : Nat), 2, 3] (by norm_num)
  simpa using h

/-- C3: for `0 ≤ i < len(R) - 1`, `RemoveRow R i` removes exactly the
element at position `i`, keeps the relative order of the others, and the
result is one element shorter.  The hypothesis `hrep` is the Go invariant
that a slice length fits in int64 (it rules only out sequences no Go
program can hold, where the wrap of `rmvIdx+1` would have no
counterpart). -/
theorem removeRow_middle {α : Type} (rows : List α) (i : Int)
    (hrep : (rows.length : Int) ≤ 9223372036854775807)
    (h0 : 0 ≤ i) (h1 : i < (rows.length : Int) - 1) :
    RemoveRow rows i = some (rows.eraseIdx i.toNat) ∧
    (rows.eraseIdx i.toNat).length = rows.length - 1 := by
  have hlen : i.toNat < rows.length := by omega
  have hwrap : int64Succ i = i + 1 := by
    unfold int64Succ
    rw [if_neg (by omega)]
  constructor
  · unfold RemoveRow
    simp only [hwrap]
    rw [if_neg (by omega), if_neg (by omega)]
    unfold goSliceTo goSliceFrom
    rw [if_pos (by omega), if_pos (by omega)]
    have hsucc : (i + 1).toNat = i.toNat + 1 := by omega
    simp only [hsucc, List.eraseIdx_eq_take_drop_succ]
    rfl
  · exact List.length_eraseIdx_of_lt hlen

theorem removeRow_middle_witness :
    RemoveRow [(10 : Nat), 20, 30] 1 = some [10, 30] := by
  have h := removeRow_middle [(10 : Nat), 20, 30] 1 (by norm_num) (by norm_num)
    (by norm_num)
  simpa using h.1

/-- C7 counterexample: at `rmvIdx = maxInt64` the claimed silent no-op
fails — Go computes `rmvIdx+1`, which wraps to minInt64, the out-of-range
guard `rmvIdx+1 > len(rows)` is false, and `rows[:rmvIdx]` panics (`none`
in the embedding) even though the index is strictly greater than the
length. -/
theorem removeRow_maxInt64_panics :
    (([(1 : Nat), 2].length : Int) < 9223372036854775807) ∧
    RemoveRow [(1 : Nat), 2] 9223372036854775807 = none := by
  exact ⟨by decide, by decide⟩

/-- C7 (amended): for any index strictly greater than `len(rows)` and
strictly below maxInt64, `RemoveRow` is a silent no-op: the rows come
back unchanged and no error is raised.  At index = maxInt64 the increment
`rmvIdx+1` wraps to minInt64, the guard fails and the slice expression
panics instead. -/
theorem removeRow_past_length {α : Type} (rows : List α) (i : Int)
    (h : (rows.length : Int) < i) (hmax : i < 9223372036854775807) :
    RemoveRow rows i = some rows := by
  have hwrap : int64Succ i = i + 1 := by
    unfold int64Succ
    rw [if_neg (by omega)]
  unfold RemoveRow
  simp only [hwrap]
  rw [if_neg (by omega), if_pos (by omega)]

theorem removeRow_past_length_witness :
    RemoveRow [(1 : Nat), 2] 7 = some [1, 2] :=
  removeRow_past_length [(1 : Nat), 2] 7 (by norm_num) (by norm_num)

/-- C8: on a non-empty row sequence, a negative index falls through both
guards (for a negative int64, `rmvIdx+1` never overflows) and evaluates
the slice `rows[:rmvIdx]` with a negative bound — a panic, i.e. `none` in
the total embedding, not a no-op. -/
theorem removeRow_negative {α : Type} (rows : List α) (i : Int)
    (hne : rows ≠ []) (hi : i < 0) :
    RemoveRow rows i = none := by
  have hlen : 0 < rows.length := List.length_pos.mpr hne
  have hwrap : int64Succ i = i + 1 := by
    unfold int64Succ
    rw [if_neg (by omega)]
  unfold RemoveRow
  simp only [hwrap]
  rw [if_neg (by omega), if_neg (by omega)]
  unfold goSliceTo
  rw [if_neg (by omega)]
  rfl

theorem removeRow_negative_witness :
    RemoveRow [(5 : Nat)] (-1) = none :=
  removeRow_negative [(5 : Nat)] (-1) (by simp) (by norm_num)

/-- C4 counterexample: the claim says `SerialDate "not-a-date" layout`
fails for every layout, but with the layout `"not-a-date"` itself the
value matches the layout literally, `time.Parse` succeeds (with the
defaults year 0, January 1), and `SerialDate` returns a value. -/
theorem serialDate_notadate_layout_succeeds :
    SerialDate "not-a-date" "not-a-date" ≠ none := by
  decide

/-- C4 (amended): `SerialDate` fails exactly when its value fails to parse
under its layout (the epoch parse never fails); in particular
"not-a-date" fails under the month/day/year layout "1/2/2006", though not
under every layout. -/
theorem serialDate_err_iff :
    (∀ value layout : String,
      (SerialDate value layout = none ↔ timeParse layout value = none)) ∧
    SerialDate "not-a-date" "1/2/2006" = none := by
  constructor
  · intro value layout
    unfold SerialDate
    cases h : timeParse layout value with
    | none => simp
    | some d => rw [epoch_parses]; simp
  · decide

/-- Shared helper: whenever the value parses to `d` and the day distance
from the epoch fits the int64 `Duration` range, `SerialDate` returns
exactly that signed day count. -/
theorem serialDate_eq_daycount (value layout : String) (d : Date)
    (hp : timeParse layout value = some d)
    (hlb : -106751 ≤ absDays d - absDays serialEpoch)
    (hub : absDays d - absDays serialEpoch ≤ 106751) :
    SerialDate value layout =
      some ((absDays d - absDays serialEpoch : Int) : ℚ) := by
  unfold SerialDate
  rw [hp, epoch_parses]
  exact congrArg some (durHours_subDur _ _ hlb hub)

/-- Shared helper: the three reference values of the serial-date
conversion under the Go month/day/year layout. -/
theorem serialDate_reference_values :
    SerialDate "12/30/1899" "1/2/2006" = some 0 ∧
    SerialDate "1/1/1900" "1/2/2006" = some 2 ∧
    SerialDate "3/2/2023" "1/2/2006" = some 44987 := by
  refine ⟨?_, ?_, ?_⟩
  · have h := serialDate_eq_daycount "12/30/1899" "1/2/2006" ⟨1899, 12, 30⟩
      (by decide) (by decide) (by decide)
    have hd : absDays ⟨1899, 12, 30⟩ - absDays serialEpoch = 0 := by decide
    rw [h, hd]
    norm_num
  · have h := serialDate_eq_daycount "1/1/1900" "1/2/2006" ⟨1900, 1, 1⟩
      (by decide) (by decide) (by decide)
    have hd : absDays ⟨1900, 1, 1⟩ - absDays serialEpoch = 2 := by decide
    rw [h, hd]
    norm_num
  · have h := serialDate_eq_daycount "3/2/2023" "1/2/2006" ⟨2023, 3, 2⟩
      (by decide) (by decide) (by decide)
    have hd : absDays ⟨2023, 3, 2⟩ - absDays serialEpoch = 44987 := by decide
    rw [h, hd]
    norm_num

/-- C5 counterexample: `"1/1/0000"` parses under "1/2/2006", its true
day-count distance from the epoch is −693959 days, but that exceeds the
int64 `Duration` range, `Sub` saturates at the minimum duration, and
`SerialDate` does not return the exact day count. -/
theorem serialDate_clamped_counterexample :
    timeParse "1/2/2006" "1/1/0000" = some ⟨0, 1, 1⟩ ∧
    absDays ⟨0, 1, 1⟩ - absDays serialEpoch = -693959 ∧
    SerialDate "1/1/0000" "1/2/2006" ≠ some (-693959 : ℚ) := by
  refine ⟨by decide, by decide, ?_⟩
  have hp : timeParse "1/2/2006" "1/1/0000" = some ⟨0, 1, 1⟩ := by decide
  unfold SerialDate
  rw [hp, epoch_parses]
  show some (durHours (subDur (absDays ⟨0, 1, 1⟩) (absDays serialEpoch)) / 24) ≠
    some (-693959 : ℚ)
  have hs : subDur (absDays ⟨0, 1, 1⟩) (absDays serialEpoch) = minDuration := by
    decide
  rw [hs]
  have ht : Int.tdiv minDuration 3600000000000 = -2562047 := by decide
  have hm : Int.tmod minDuration 3600000000000 = -2836854775808 := by decide
  unfold durHours
  rw [ht, hm]
  intro hcontra
  rw [Option.some_inj] at hcontra
  norm_num at hcontra

/-- C5 (amended): whenever the value parses and the true day-count
distance from the epoch 1899-12-30 is within the int64 `Duration` range
(at most 106751 days either way), `SerialDate` succeeds and returns
exactly that signed day count — negative for dates before the epoch;
outside that range the duration saturates and the result is clamped. -/
theorem serialDate_exact_daycount (value layout : String) (d : Date)
    (hp : timeParse layout value = some d)
    (hlb : -106751 ≤ absDays d - absDays serialEpoch)
    (hub : absDays d - absDays serialEpoch ≤ 106751) :
    SerialDate value layout =
      some ((absDays d - absDays serialEpoch : Int) : ℚ) :=
  serialDate_eq_daycount value layout d hp hlb hub

theorem serialDate_exact_daycount_witness :
    SerialDate "3/2/2023" "1/2/2006" =
      some ((absDays ⟨2023, 3, 2⟩ - absDays serialEpoch : Int) : ℚ) :=
  serialDate_exact_daycount "3/2/2023" "1/2/2006" ⟨2023, 3, 2⟩
    (by decide) (by decide) (by decide)

/-- C6 counterexample: the epoch is 1899-12-30, two days before
1900-01-01, so `SerialDate "1/1/1900"` under the month/day/year layout is
2.0, not the claimed 1.0. -/
theorem serialDate_jan1_1900_ne_one :
    SerialDate "1/1/1900" "1/2/2006" ≠ some 1 := by
  have h := serialDate_eq_daycount "1/1/1900" "1/2/2006" ⟨1900, 1, 1⟩
    (by decide) (by decide) (by decide)
  have hd : absDays ⟨1900, 1, 1⟩ - absDays serialEpoch = 2 := by decide
  rw [h, hd]
  intro hcontra
  rw [Option.some_inj] at hcontra
  norm_num at hcontra

/-- C6 (amended): under the Go month/day/year layout "1/2/2006",
`SerialDate` maps "12/30/1899" to 0.0, "1/1/1900" to 2.0, and "3/2/2023"
to 44987.0 — the exact day counts from the 1899-12-30 epoch. -/
theorem serialDate_known_values :
    SerialDate "12/30/1899" "1/2/2006" = some 0 ∧
    SerialDate "1/1/1900" "1/2/2006" = some 2 ∧
    SerialDate "3/2/2023" "1/2/2006" = some 44987 :=
  serialDate_reference_values

/-- C9: when `SerialDate` fails, `DateCell` returns exactly the text cell
for the raw date string; when it succeeds with serial number `q`, the cell
value is `NumberValue q` and the cell format carries the styler's date
number format. -/
theorem dateCell_spec (s : Styler) (date layout : String)
    (b : Option BorderConf) :
    (SerialDate date layout = none →
      s.DateCell date layout b = s.TextCell date b) ∧
    (∀ q, SerialDate date layout = some q →
      (s.DateCell date layout b).userEnteredValue = some (NumberValue q) ∧
      ∃ fmt, (s.DateCell date layout b).userEnteredFormat = some fmt ∧
        fmt.numberFormat = some s.DateFormat) := by
  constructor
  · intro h
    unfold Styler.DateCell
    rw [h]
  · intro q h
    unfold Styler.DateCell
    rw [h]
    exact ⟨rfl, _, rfl, rfl⟩

theorem dateCell_spec_witness :
    NewStyler.DateCell "not-a-date" "1/2/2006" none =
      NewStyler.TextCell "not-a-date" none ∧
    (NewStyler.DateCell "3/2/2023" "1/2/2006" none).userEnteredValue =
      some (NumberValue 44987) := by
  constructor
  · exact (dateCell_spec NewStyler "not-a-date" "1/2/2006" none).1 (by decide)
  · exact ((dateCell_spec NewStyler "3/2/2023" "1/2/2006" none).2 44987
      serialDate_reference_values.2.2).1

/-- C10: `CellBorders` sets a border on exactly the sides whose flag is
set, each with style `conf.style` when non-empty (otherwise "SOLID") and
color `conf.color` when present (otherwise opaque black). -/
theorem cellBorders_spec (conf : BorderConf) :
    ((CellBorders conf).bottom =
      if conf.bottom then
        some ⟨conf.color.getD BLACK_COLOR,
          if conf.style = "" then "SOLID" else conf.style⟩
      else none) ∧
    ((CellBorders conf).left =
      if conf.left then
        some ⟨conf.color.getD BLACK_COLOR,
          if conf.style = "" then "SOLID" else conf.style⟩
      else none) ∧
    ((CellBorders conf).right =
      if conf.right then
        some ⟨conf.color.getD BLACK_COLOR,
          if conf.style = "" then "SOLID" else conf.style⟩
      else none) ∧
    ((CellBorders conf).top =
      if conf.top then
        some ⟨conf.color.getD BLACK_COLOR,
          if conf.style = "" then "SOLID" else conf.style⟩
      else none) := by
  obtain ⟨bot, lft, rgt, sty, top, col⟩ := conf
  unfold CellBorders
  cases col <;> cases bot <;> cases lft <;> cases rgt <;> cases top <;>
    simp [Option.getD]

end RWSheets

